import Mathlib

/-!
Shallow embedding of `rasa/nlu/classifiers/embedding_intent_classifier.py`
(the supervised embedding intent classifier), covering:

* `_create_intent_dict` — the label-name → integer-id dictionary,
* `_create_intent_token_dict` / `_create_encoded_intents` — the label
  representation matrix (identity matrix or multi-hot bag of tokens),
* `_load_embedding_params` — configuration loading of `num_neg`,
  `similarity_type` ("auto" resolution) and `loss_type`,
* `_load_flag_if_tokenize_intents` — the tokenization-flag downgrade,
* `train` — the insufficient-label guard and the `num_neg` clamp,
* `_calculate_message_sim` / `process` — descending-confidence ranking,
  the all-zero-input guard and the unknown sentinel,
* `persist` / `load` — directory creation, the untrained descriptor
  `{"file": None}` and the no-model fallback branch of `load`.

Numeric feature and confidence values (numpy float arrays in the source)
are modelled as rationals: every claim below is about ordering, equality
to 0/1 and list structure, never about rounding. Python dicts built by
comprehensions over `enumerate` are modelled as association lists in
insertion order; Python strings are modelled as `String` with the
lexicographic order (Python compares strings by code points, as Lean
does). The TensorFlow session is modelled as opaque: components only
test it against `None`, which is the only way the source consults it
outside the numeric graph.
-/

/-- Python `enumerate(xs, n)`: pair every element with its 0-based index
starting at `n`. -/
def enum_from {α : Type} (n : ℕ) : List α → List (ℕ × α)
  | [] => []
  | a :: as => (n, a) :: enum_from (n + 1) as

/-- Python dict lookup `d[k]` on a dict represented as an association
list in insertion order (first binding wins, as keys are unique in all
dicts built by the source). -/
def assoc_get {α β : Type} [DecidableEq α] (k : α) : List (α × β) → Option β
  | [] => none
  | (k2, v) :: rest => if k = k2 then some v else assoc_get k rest

/-- The dict comprehension `{x: idx for idx, x in enumerate(L, n)}`. -/
def dict_of {α : Type} (n : ℕ) (L : List α) : List (α × ℕ) :=
  (enum_from n L).map (fun p => (p.2, p.1))

/-- `sorted(set(labels))`: the distinct observed label names in
lexicographic order.  (`List.dedup` keeps one copy of each distinct
element; the subsequent sort makes the order canonical, exactly as
Python's `sorted` over a `set`.) -/
def distinct_sorted (labels : List String) : List String :=
  List.insertionSort (· ≤ ·) labels.dedup

/-- `_create_intent_dict`: `{intent: idx for idx, intent in
enumerate(sorted(distinct_intents))}`. -/
def create_intent_dict (labels : List String) : List (String × ℕ) :=
  dict_of 0 (distinct_sorted labels)

/-- `self.inv_intent_dict = {v: k for k, v in intent_dict.items()}`
(built in `train`). -/
def inv_intent_dict (labels : List String) : List (ℕ × String) :=
  (create_intent_dict labels).map (fun p => (p.2, p.1))

/-- The sorted distinct token vocabulary of `_create_intent_token_dict`:
`sorted(set(token for intent in intents for token in
intent.split(intent_split_symbol)))`. -/
def token_vocab (intents : List String) (intent_split_symbol : String) : List String :=
  List.insertionSort (· ≤ ·)
    (intents.flatMap (fun intent => intent.splitOn intent_split_symbol)).dedup

/-- `_create_intent_token_dict`: `{token: idx for idx, token in
enumerate(sorted(distinct_tokens))}`. -/
def create_intent_token_dict (intents : List String)
    (intent_split_symbol : String) : List (String × ℕ) :=
  dict_of 0 (token_vocab intents intent_split_symbol)

/-- `np.eye(n)` as a list of rows. -/
def eye (n : ℕ) : List (List ℚ) :=
  (List.range n).map (fun i => (List.range n).map (fun j => if i = j then (1 : ℚ) else 0))

/-- One row of the bag-of-tokens matrix built by `_create_encoded_intents`
when tokenization is on: the source starts from `np.zeros` and sets
`encoded_all_intents[idx, intent_token_dict[t]] = 1` for every token `t`
of the label name, so column `j` of the row for `key` is 1 exactly when
some token of `key` is mapped to `j` by the token dictionary. -/
def encoded_row (intent_token_dict : List (String × ℕ)) (num_tokens : ℕ)
    (intent_split_symbol key : String) : List ℚ :=
  (List.range num_tokens).map
    (fun j =>
      if ∃ t ∈ key.splitOn intent_split_symbol, assoc_get t intent_token_dict = some j
      then (1 : ℚ) else 0)

/-- `_create_encoded_intents`: identity matrix when
`intent_tokenization_flag` is off, otherwise one bag-of-tokens row per
label, in id order (the ids assigned by `enumerate` coincide with the
positions of the keys in the dict, so iterating `intent_dict.items()`
and writing row `idx` is iterating the association list in order). -/
def create_encoded_intents (intent_tokenization_flag : Bool)
    (intent_split_symbol : String) (intent_dict : List (String × ℕ)) : List (List ℚ) :=
  if intent_tokenization_flag then
    let intent_token_dict :=
      create_intent_token_dict (intent_dict.map Prod.fst) intent_split_symbol
    intent_dict.map
      (fun p => encoded_row intent_token_dict intent_token_dict.length intent_split_symbol p.1)
  else
    eye intent_dict.length

/-- The configuration keys consumed by `_load_embedding_params`.  Only
the fields the claims are about are carried. -/
structure EmbeddingParamsConfig where
  num_neg : ℕ
  similarity_type : String
  loss_type : String

/-- The component state set by `_load_embedding_params`. -/
structure EmbeddingParams where
  num_neg : ℕ
  similarity_type : String
  loss_type : String

/-- `_load_embedding_params`: copies `num_neg` verbatim and resolves
`similarity_type = "auto"` from the loss type (softmax → inner,
margin → cosine). -/
def load_embedding_params (config : EmbeddingParamsConfig) : EmbeddingParams :=
  { num_neg := config.num_neg
    loss_type := config.loss_type
    similarity_type :=
      if config.similarity_type = "auto" then
        if config.loss_type = "softmax" then ("inner")
        else if config.loss_type = "margin" then ("cosine")
        else config.similarity_type
      else config.similarity_type }

/-- Python falsy test on the configured split symbol (`not
self.intent_split_symbol`): true for an unset value and for the empty
string. -/
def py_falsy : Option String → Bool
  | none => true
  | some s => s == ""

/-- The component state set by `_load_flag_if_tokenize_intents`,
together with whether the downgrade warning was logged. -/
structure TokenizeFlags where
  intent_tokenization_flag : Bool
  intent_split_symbol : Option String
  warning_logged : Bool
deriving DecidableEq

/-- `_load_flag_if_tokenize_intents`: if the flag is set but the split
symbol is falsy, log a warning and downgrade the flag to `False`;
otherwise keep both values.  Never raises. -/
def load_flag_if_tokenize_intents (intent_tokenization_flag : Bool)
    (intent_split_symbol : Option String) : TokenizeFlags :=
  if intent_tokenization_flag && py_falsy intent_split_symbol then
    { intent_tokenization_flag := false
      intent_split_symbol := intent_split_symbol
      warning_logged := true }
  else
    { intent_tokenization_flag := intent_tokenization_flag
      intent_split_symbol := intent_split_symbol
      warning_logged := false }

/-- The state a successful `train` leaves behind (the pieces the claims
consult): `inv_intent_dict`, `_encoded_all_intents` and the clamped
`num_neg`.  A live session exists exactly when this state exists. -/
structure TrainedModel where
  inv_intent_dict : List (ℕ × String)
  encoded_all_intents : List (List ℚ)
  num_neg : ℕ
deriving DecidableEq

/-- Outcome of `train`: either a model, or no model together with the
"Need at least 2 different classes" error report (`logger.error` plus a
plain `return`, not an exception). -/
structure TrainResult where
  model : Option TrainedModel
  insufficient_labels_logged : Bool
deriving DecidableEq

/-- `train`: builds the intent dict; if it has fewer than 2 entries,
logs the skip and returns without a model; otherwise builds
`inv_intent_dict` and `_encoded_all_intents` and clamps `num_neg` to
`encoded_all_intents.shape[0] - 1`. -/
def train (num_neg : ℕ) (intent_tokenization_flag : Bool)
    (intent_split_symbol : String) (labels : List String) : TrainResult :=
  let intent_dict := create_intent_dict labels
  if intent_dict.length < 2 then
    { model := none, insufficient_labels_logged := true }
  else
    let inv := intent_dict.map (fun p => (p.2, p.1))
    let encoded :=
      create_encoded_intents intent_tokenization_flag intent_split_symbol intent_dict
    { model := some
        { inv_intent_dict := inv
          encoded_all_intents := encoded
          num_neg := min num_neg (encoded.length - 1) }
      insufficient_labels_logged := false }

/-- The top prediction / one ranking entry: `{"name": ..., "confidence": ...}`. -/
structure Intent where
  name : Option String
  confidence : ℚ
deriving DecidableEq

/-- What `process` writes onto the message: the `intent` and the
`intent_ranking` outputs. -/
structure ProcessResult where
  intent : Intent
  intent_ranking : List Intent
deriving DecidableEq

/-- Modelled from the spec: the small fixed top-N bound used to truncate
the ranking list (`INTENT_RANKING_LENGTH`, imported by the source from
`rasa.nlu.classifiers`, whose definition is not under `src/`; the spec
only requires it to be a small fixed bound). -/
def INTENT_RANKING_LENGTH : ℕ := 10

/-- `_calculate_message_sim`: `intent_ids = message_sim.argsort()[::-1]`
(indices sorted by descending similarity; numpy's unstable quicksort
leaves the order of tied entries unspecified, so any descending argsort
is a faithful model) and `message_sim[::-1].sort()` (the similarity
values themselves sorted descending, in place). -/
def calculate_message_sim (message_sim : List ℚ) : List ℕ × List ℚ :=
  (List.insertionSort (fun i j => message_sim.getD j 0 ≤ message_sim.getD i 0)
      (List.range message_sim.length),
   List.insertionSort (fun a b : ℚ => b ≤ a) message_sim)

/-- `process`: with no trained session, log the diagnostic and keep the
sentinel `{"name": None, "confidence": 0.0}` with an empty ranking.
Otherwise compute the sorted ids and similarities; if the feature vector
contains any non-zero entry (`X.any()`) and there is at least one id,
emit the top-1 intent and the ranking truncated to
`INTENT_RANKING_LENGTH`; otherwise keep the sentinel. -/
def process (model : Option TrainedModel) (text_features message_sim : List ℚ) :
    ProcessResult :=
  match model with
  | none => { intent := { name := none, confidence := 0 }, intent_ranking := [] }
  | some m =>
    let intent_ids := (calculate_message_sim message_sim).1
    let sims := (calculate_message_sim message_sim).2
    if (∃ v ∈ text_features, v ≠ 0) ∧ 0 < intent_ids.length then
      { intent :=
          { name := assoc_get (intent_ids.headD 0) m.inv_intent_dict
            confidence := sims.headD 0 }
        intent_ranking :=
          ((intent_ids.zip sims).take INTENT_RANKING_LENGTH).map
            (fun p => { name := assoc_get p.1 m.inv_intent_dict, confidence := p.2 }) }
    else
      { intent := { name := none, confidence := 0 }, intent_ranking := [] }

/-- Python truthiness of an optional string (`if model_dir and
meta.get("file")`): set and non-empty. -/
def py_truthy : Option String → Bool
  | none => false
  | some s => !(s == "")

/-- What the `load` classmethod does, as decided by the code under
`src/`: either it takes the warning fallback branch (returning
`cls(component_config=meta)`, an untrained component whose session is
`None`), or it proceeds to restore the TensorFlow checkpoint at the
given path (`import_meta_graph` / `saver.restore`, only meaningful when
that path exists on disk), or — when `model_dir` is unset — the
fallback branch itself raises: its warning message eagerly evaluates
`os.path.abspath(model_dir)`, and `os.path.abspath(None)` raises
`TypeError` before any warning is logged or any component returned. -/
inductive LoadResult where
  | fallback (warning_logged : Bool)
  | restoreAttempt (checkpoint : String)
  | raisedTypeError
deriving DecidableEq

/-- `load`: `if model_dir and meta.get("file")` restore the checkpoint
`os.path.join(model_dir, file_name + ".ckpt")`, else log the "Failed to
load nlu model. Maybe path {} doesn't exist" warning and return an
untrained component.  The branch condition consults only the metadata,
never the filesystem; and the warning's `format(os.path.abspath(model_dir))`
raises `TypeError` when `model_dir` is `None` (an actual string,
including the empty string, is fine: `os.path.abspath` accepts it). -/
def load (model_dir file_name : Option String) : LoadResult :=
  if py_truthy model_dir && py_truthy file_name then
    LoadResult.restoreAttempt
      ((model_dir.getD ("")) ++ ("/") ++ (file_name.getD ("")) ++ (".ckpt"))
  else
    match model_dir with
    | none => LoadResult.raisedTypeError
    | some _ => LoadResult.fallback true

/-- Errors raised by `os.makedirs`, split the way the source's `except
OSError` handler splits them: `errno.EEXIST` versus everything else. -/
inductive OSErr where
  | eexist
  | other (errno : ℕ)
deriving DecidableEq

/-- The nonempty ancestor paths of a directory given as a component
list: `os.makedirs` creates every one of them that is missing. -/
def path_inits (dir : List String) : List (List String) :=
  (List.range dir.length).map (fun k => dir.take (k + 1))

/-- `os.makedirs(dir)` on a filesystem modelled as the list of existing
directory paths.  `envFail` injects an environment failure (permission
denied and the like, or a directory concurrently created by another
process which surfaces as `EEXIST`); with no injected failure, the call
raises `EEXIST` when the directory already exists and otherwise creates
the directory and all missing ancestors. -/
def makedirs (fs : List (List String)) (dir : List String) (envFail : Option OSErr) :
    Except OSErr (List (List String)) :=
  match envFail with
  | some e => Except.error e
  | none =>
    if dir ∈ fs then Except.error OSErr.eexist
    else Except.ok (fs ++ (path_inits dir).filter (fun p => decide (p ∉ fs)))

/-- Outcome of `persist`: the returned metadata (`{"file": file_name}`
or `{"file": None}`), the filesystem after the call, and the files the
call wrote. -/
structure PersistResult where
  file : Option String
  fs : List (List String)
  files_written : List (List String)
deriving DecidableEq

/-- `persist`: with no session, return `{"file": None}` immediately
(nothing is written).  Otherwise run
`os.makedirs(os.path.dirname(checkpoint))` — the dirname of
`os.path.join(model_dir, file_name + ".ckpt")` is `model_dir` — ignore
an `EEXIST` failure, re-raise any other failure, then write the
checkpoint files and the pickled `inv_intent_dict` and return
`{"file": file_name}`. -/
def persist (session : Option TrainedModel) (file_name : String)
    (model_dir : List String) (fs : List (List String)) (envFail : Option OSErr) :
    Except OSErr PersistResult :=
  match session with
  | none => Except.ok { file := none, fs := fs, files_written := [] }
  | some _ =>
    let files := [model_dir ++ [file_name ++ (".ckpt")],
                  model_dir ++ [file_name ++ ("_inv_intent_dict.pkl")]]
    match makedirs fs model_dir envFail with
    | Except.error e =>
      if e = OSErr.eexist then
        Except.ok { file := some file_name, fs := fs, files_written := files }
      else
        Except.error e
    | Except.ok fs2 =>
      Except.ok { file := some file_name, fs := fs2, files_written := files }

/-! ### Helper lemmas on `enum_from`, `dict_of` and `assoc_get` -/

theorem enum_from_map_snd {α : Type} (n : ℕ) (L : List α) :
    (enum_from n L).map Prod.snd = L := by
  induction L generalizing n with
  | nil => rfl
  | cons a as ih => simp [enum_from, ih]

theorem enum_from_map_fst {α : Type} (n : ℕ) (L : List α) :
    (enum_from n L).map Prod.fst = List.range' n L.length := by
  induction L generalizing n with
  | nil => rfl
  | cons a as ih => simp [enum_from, ih, List.range']

theorem dict_of_cons {α : Type} (n : ℕ) (a : α) (as : List α) :
    dict_of n (a :: as) = (a, n) :: dict_of (n + 1) as := rfl

theorem dict_of_map_fst {α : Type} (n : ℕ) (L : List α) :
    (dict_of n L).map Prod.fst = L := by
  induction L generalizing n with
  | nil => rfl
  | cons a as ih => simp [dict_of_cons, ih]

theorem dict_of_map_snd {α : Type} (n : ℕ) (L : List α) :
    (dict_of n L).map Prod.snd = List.range' n L.length := by
  induction L generalizing n with
  | nil => rfl
  | cons a as ih => simp [dict_of_cons, ih, List.range']

theorem dict_of_length {α : Type} (n : ℕ) (L : List α) :
    (dict_of n L).length = L.length := by
  have h := congrArg List.length (dict_of_map_fst n L)
  simpa using h

theorem assoc_get_dict_of_ge {α : Type} [DecidableEq α] (L : List α) :
    ∀ (n i : ℕ) (a : α), assoc_get a (dict_of n L) = some i → n ≤ i := by
  induction L with
  | nil => intro n i a h; simp [dict_of, enum_from, assoc_get] at h
  | cons b bs ih =>
    intro n i a h
    rw [dict_of_cons] at h
    by_cases hab : a = b
    · simp [assoc_get, hab] at h
      omega
    · simp only [assoc_get, if_neg hab] at h
      have := ih (n + 1) i a h
      omega

theorem assoc_get_dict_of_mem {α : Type} [DecidableEq α] (L : List α) :
    ∀ (n : ℕ) (a : α), a ∈ L → ∃ i, assoc_get a (dict_of n L) = some i := by
  induction L with
  | nil => intro n a h; simp at h
  | cons b bs ih =>
    intro n a h
    rw [dict_of_cons]
    by_cases hab : a = b
    · exact ⟨n, by simp [assoc_get, hab]⟩
    · have hmem : a ∈ bs := by
        rcases List.mem_cons.mp h with h1 | h1
        · exact absurd h1 hab
        · exact h1
      obtain ⟨i, hi⟩ := ih (n + 1) a hmem
      exact ⟨i, by simp [assoc_get, hab, hi]⟩

theorem assoc_get_dict_of_enum {α : Type} [DecidableEq α] (L : List α) :
    ∀ (n i : ℕ) (a : α), assoc_get a (dict_of n L) = some i →
      assoc_get i (enum_from n L) = some a := by
  induction L with
  | nil => intro n i a h; simp [dict_of, enum_from, assoc_get] at h
  | cons b bs ih =>
    intro n i a h
    rw [dict_of_cons] at h
    by_cases hab : a = b
    · simp only [assoc_get, if_pos hab] at h
      have hni : n = i := by simpa using h
      subst hni
      simp [enum_from, assoc_get, hab]
    · simp only [assoc_get, if_neg hab] at h
      have hge := assoc_get_dict_of_ge bs (n + 1) i a h
      have hne : i ≠ n := by omega
      simp only [enum_from, assoc_get, if_neg hne]
      exact ih (n + 1) i a h

theorem assoc_get_enum_from_getD {α : Type} [DecidableEq α] (L : List α) (d : α) :
    ∀ (n i : ℕ) (a : α), assoc_get i (enum_from n L) = some a →
      ∃ k, i = n + k ∧ k < L.length ∧ L.getD k d = a := by
  induction L with
  | nil => intro n i a h; simp [enum_from, assoc_get] at h
  | cons b bs ih =>
    intro n i a h
    simp only [enum_from, assoc_get] at h
    by_cases hin : i = n
    · refine ⟨0, by omega, by simp, ?_⟩
      rw [if_pos hin] at h
      simpa using h
    · rw [if_neg hin] at h
      obtain ⟨k, hk1, hk2, hk3⟩ := ih (n + 1) i a h
      exact ⟨k + 1, by omega, by simpa using hk2, by simpa using hk3⟩

theorem assoc_get_dict_of_getD {α : Type} [DecidableEq α] (L : List α) (d : α) :
    ∀ (n k : ℕ), L.Nodup → k < L.length →
      assoc_get (L.getD k d) (dict_of n L) = some (n + k) := by
  induction L with
  | nil => intro n k _ hk; simp at hk
  | cons b bs ih =>
    intro n k hnd hk
    rw [dict_of_cons]
    cases k with
    | zero => simp [assoc_get]
    | succ k2 =>
      have hlt : k2 < bs.length := by simpa using hk
      have hmem : bs.getD k2 d ∈ bs := by
        have hg : bs.getD k2 d = bs[k2] := by
          simp [List.getD_eq_getElem?_getD, List.getElem?_eq_getElem hlt]
        rw [hg]
        exact List.getElem_mem hlt
      have hnotb : bs.getD k2 d ≠ b := by
        intro hEq
        have : b ∉ bs := (List.nodup_cons.mp hnd).1
        exact this (hEq ▸ hmem)
      simp only [List.getD_cons_succ, assoc_get, if_neg hnotb]
      have := ih (n + 1) k2 (List.nodup_cons.mp hnd).2 hlt
      rw [this]
      congr 1
      omega

/-! ### Helper lemmas on `getD`, `range` and sorting -/

theorem getD_map_lt {α β : Type} (f : α → β) (L : List α) (d : α) (d2 : β) :
    ∀ i, i < L.length → (L.map f).getD i d2 = f (L.getD i d) := by
  induction L with
  | nil => intro i hi; simp at hi
  | cons a as ih =>
    intro i hi
    cases i with
    | zero => simp
    | succ k => simpa using ih k (by simpa using hi)

theorem getD_range_lt (n : ℕ) : ∀ i, i < n → (List.range n).getD i 0 = i := by
  intro i hi
  simp [List.getD_eq_getElem?_getD, List.getElem?_range hi]

theorem map_getD_range (l : List ℚ) :
    (List.range l.length).map (fun i => l.getD i 0) = l := by
  apply List.ext_get
  · simp
  · intro n h1 h2
    simp [List.getD_eq_getElem?_getD, List.getElem?_eq_getElem h2]

theorem distinct_sorted_nodup (labels : List String) : (distinct_sorted labels).Nodup :=
  ((List.perm_insertionSort (· ≤ ·) labels.dedup).nodup_iff).mpr (List.nodup_dedup labels)

theorem distinct_sorted_sorted (labels : List String) :
    List.Sorted (· ≤ ·) (distinct_sorted labels) :=
  List.sorted_insertionSort (· ≤ ·) labels.dedup

theorem mem_distinct_sorted {labels : List String} {a : String} (h : a ∈ labels) :
    a ∈ distinct_sorted labels :=
  ((List.perm_insertionSort (· ≤ ·) labels.dedup).mem_iff).mpr (List.mem_dedup.mpr h)

theorem create_intent_dict_length (labels : List String) :
    (create_intent_dict labels).length = labels.dedup.length := by
  rw [create_intent_dict, dict_of_length]
  exact (List.perm_insertionSort (· ≤ ·) labels.dedup).length_eq

theorem create_encoded_intents_length (intent_tokenization_flag : Bool)
    (intent_split_symbol : String) (intent_dict : List (String × ℕ)) :
    (create_encoded_intents intent_tokenization_flag intent_split_symbol intent_dict).length
      = intent_dict.length := by
  unfold create_encoded_intents
  split <;> simp [eye]

theorem process_none (text_features message_sim : List ℚ) :
    process none text_features message_sim
      = { intent := { name := none, confidence := 0 }, intent_ranking := [] } := rfl

/-! ### Claim theorems -/

/-- C1: `_create_intent_dict` is deterministic; for every training set
with at least 2 distinct labels it assigns 0-based contiguous integer
ids by enumerating the distinct observed label names in lexicographic
order, its keys are sorted and duplicate-free (so the mapping is a
bijection between names and `[0, num_labels)`), and the round trip
through `inv_intent_dict` recovers every observed label name:
`name(id(name)) == name`. -/
theorem create_intent_dict_sorted_bijection (labels : List String)
    (h : 2 ≤ (create_intent_dict labels).length) :
    (create_intent_dict labels).map Prod.snd
        = List.range (create_intent_dict labels).length
    ∧ List.Sorted (· ≤ ·) ((create_intent_dict labels).map Prod.fst)
    ∧ ((create_intent_dict labels).map Prod.fst).Nodup
    ∧ (∀ name ∈ labels, ∃ i, i < (create_intent_dict labels).length
        ∧ assoc_get name (create_intent_dict labels) = some i
        ∧ assoc_get i (inv_intent_dict labels) = some name) := by
  refine ⟨?_, ?_, ?_, ?_⟩
  · rw [create_intent_dict, dict_of_map_snd, dict_of_length, List.range_eq_range']
  · rw [create_intent_dict, dict_of_map_fst]
    exact distinct_sorted_sorted labels
  · rw [create_intent_dict, dict_of_map_fst]
    exact distinct_sorted_nodup labels
  · intro name hname
    have hmem : name ∈ distinct_sorted labels := mem_distinct_sorted hname
    obtain ⟨i, hi⟩ := assoc_get_dict_of_mem (distinct_sorted labels) 0 name hmem
    refine ⟨i, ?_, hi, ?_⟩
    · obtain ⟨k, hk1, hk2, _⟩ :=
        assoc_get_enum_from_getD (distinct_sorted labels) ("") 0 i name
          (assoc_get_dict_of_enum (distinct_sorted labels) 0 i name hi)
      rw [create_intent_dict, dict_of_length]
      omega
    · have hinv : inv_intent_dict labels = enum_from 0 (distinct_sorted labels) := by
        rw [inv_intent_dict, create_intent_dict, dict_of, List.map_map]
        show List.map id (enum_from 0 (distinct_sorted labels))
            = enum_from 0 (distinct_sorted labels)
        exact List.map_id _
      rw [hinv]
      exact assoc_get_dict_of_enum (distinct_sorted labels) 0 i name hi

theorem create_intent_dict_sorted_bijection_witness :
    2 ≤ (create_intent_dict [("greet"), ("bye"), ("greet")]).length
    ∧ ((create_intent_dict [("greet"), ("bye"), ("greet")]).map Prod.snd
        = List.range (create_intent_dict [("greet"), ("bye"), ("greet")]).length
      ∧ List.Sorted (· ≤ ·)
          ((create_intent_dict [("greet"), ("bye"), ("greet")]).map Prod.fst)
      ∧ ((create_intent_dict [("greet"), ("bye"), ("greet")]).map Prod.fst).Nodup
      ∧ (∀ name ∈ [("greet"), ("bye"), ("greet")], ∃ i,
          i < (create_intent_dict [("greet"), ("bye"), ("greet")]).length
          ∧ assoc_get name (create_intent_dict [("greet"), ("bye"), ("greet")]) = some i
          ∧ assoc_get i (inv_intent_dict [("greet"), ("bye"), ("greet")]) = some name)) :=
  ⟨by rw [create_intent_dict_length]; decide,
   create_intent_dict_sorted_bijection [("greet"), ("bye"), ("greet")]
     (by rw [create_intent_dict_length]; decide)⟩

/-- C2: with fewer than 2 distinct labels, `train` logs the
insufficient-label report and returns without a model (no exception);
`process` on such an untrained classifier produces the unknown sentinel
`{"name": None, "confidence": 0.0}` and an empty ranking. -/
theorem train_skips_insufficient_labels (num_neg : ℕ)
    (intent_tokenization_flag : Bool) (intent_split_symbol : String)
    (labels : List String) (h : (create_intent_dict labels).length < 2) :
    train num_neg intent_tokenization_flag intent_split_symbol labels
        = { model := none, insufficient_labels_logged := true }
    ∧ ∀ text_features message_sim : List ℚ,
        process none text_features message_sim
          = { intent := { name := none, confidence := 0 }, intent_ranking := [] } := by
  constructor
  · rw [train]
    simp [h]
  · intro x s
    exact process_none x s

theorem train_skips_insufficient_labels_witness :
    (create_intent_dict [("greet"), ("greet")]).length < 2
    ∧ (train 20 false ("_") [("greet"), ("greet")]
        = { model := none, insufficient_labels_logged := true }
      ∧ ∀ text_features message_sim : List ℚ,
          process none text_features message_sim
            = { intent := { name := none, confidence := 0 }, intent_ranking := [] }) :=
  ⟨by rw [create_intent_dict_length]; decide,
   train_skips_insufficient_labels 20 false ("_") [("greet"), ("greet")]
     (by rw [create_intent_dict_length]; decide)⟩

/-- C3 counterexample: the claim locates the `num_neg` clamp "at
configuration time", but `_load_embedding_params` copies `num_neg`
through unchanged — after configuration loading, `num_neg` is 20 while
the training set `["bye", "greet"]` has `num_labels - 1 = 1`; the clamp
only happens inside `train`. -/
theorem num_neg_unclamped_at_config_time :
    (load_embedding_params
        { num_neg := 20, similarity_type := ("auto"), loss_type := ("softmax") }).num_neg
        = 20
    ∧ (create_intent_dict [("bye"), ("greet")]).length = 2
    ∧ ¬ ((load_embedding_params
          { num_neg := 20, similarity_type := ("auto"), loss_type := ("softmax") }).num_neg
        ≤ (create_intent_dict [("bye"), ("greet")]).length - 1) := by
  refine ⟨rfl, ?_, ?_⟩
  · rw [create_intent_dict_length]; decide
  · rw [create_intent_dict_length]; decide

/-- C3 (amended): `num_neg` is clamped inside `train` (once the label
dictionary is known) to at most `num_labels - 1`, so the
negative-sample count actually requested during training never exceeds
`num_labels - 1`, for every configuration and every training set. -/
theorem train_clamps_num_neg (num_neg : ℕ) (intent_tokenization_flag : Bool)
    (intent_split_symbol : String) (labels : List String)
    (h : 2 ≤ (create_intent_dict labels).length) :
    ∃ m, (train num_neg intent_tokenization_flag intent_split_symbol labels).model
          = some m
      ∧ m.num_neg ≤ (create_intent_dict labels).length - 1 := by
  rw [train]
  have hnot : ¬ ((create_intent_dict labels).length < 2) := by omega
  simp only [hnot, if_false]
  refine ⟨_, rfl, ?_⟩
  rw [create_encoded_intents_length]
  exact Nat.min_le_right _ _

theorem train_clamps_num_neg_witness :
    2 ≤ (create_intent_dict [("bye"), ("greet")]).length
    ∧ ∃ m, (train 20 false ("_") [("bye"), ("greet")]).model = some m
        ∧ m.num_neg ≤ (create_intent_dict [("bye"), ("greet")]).length - 1 :=
  ⟨by rw [create_intent_dict_length]; decide,
   train_clamps_num_neg 20 false ("_") [("bye"), ("greet")]
     (by rw [create_intent_dict_length]; decide)⟩

/-- C5: for every trained model, an all-zero input feature vector at
inference yields the unknown result `{"name": None, "confidence": 0.0}`
with an empty ranking, never a label pick (the `X.any()` guard in
`process`). -/
theorem process_zero_features_unknown (m : TrainedModel)
    (text_features message_sim : List ℚ) (h : ∀ v ∈ text_features, v = 0) :
    process (some m) text_features message_sim
      = { intent := { name := none, confidence := 0 }, intent_ranking := [] } := by
  have hcond : ¬ ((∃ v ∈ text_features, v ≠ 0)
      ∧ 0 < (calculate_message_sim message_sim).1.length) := by
    rintro ⟨⟨v, hv, hne⟩, -⟩
    exact hne (h v hv)
  simp only [process]
  rw [if_neg hcond]

theorem process_zero_features_unknown_witness :
    (∀ v ∈ [(0 : ℚ), 0], v = 0)
    ∧ process (some ⟨[(0, ("bye")), (1, ("greet"))], [[1, 0], [0, 1]], 1⟩)
        [(0 : ℚ), 0] [(3 : ℚ), 7]
        = { intent := { name := none, confidence := 0 }, intent_ranking := [] } :=
  ⟨by decide,
   process_zero_features_unknown
     ⟨[(0, ("bye")), (1, ("greet"))], [[1, 0], [0, 1]], 1⟩
     [(0 : ℚ), 0] [(3 : ℚ), 7] (by decide)⟩

/-- C7: when the tokenization flag is true but the delimiter is empty or
unset, `_load_flag_if_tokenize_intents` downgrades the flag to false and
logs a warning; it returns normally (no error). -/
theorem tokenization_flag_downgraded (intent_tokenization_flag : Bool)
    (intent_split_symbol : Option String)
    (h1 : intent_tokenization_flag = true)
    (h2 : py_falsy intent_split_symbol = true) :
    (load_flag_if_tokenize_intents intent_tokenization_flag
        intent_split_symbol).intent_tokenization_flag = false
    ∧ (load_flag_if_tokenize_intents intent_tokenization_flag
        intent_split_symbol).warning_logged = true := by
  rw [load_flag_if_tokenize_intents]
  simp [h1, h2]

theorem tokenization_flag_downgraded_witness :
    (true = true ∧ py_falsy (some ("")) = true)
    ∧ ((load_flag_if_tokenize_intents true (some (""))).intent_tokenization_flag = false
      ∧ (load_flag_if_tokenize_intents true (some (""))).warning_logged = true) :=
  ⟨⟨rfl, by decide⟩,
   tokenization_flag_downgraded true (some ("")) rfl (by decide)⟩

/-- C4: for every model and input, `_calculate_message_sim` returns the
confidence values sorted descending, and they correspond position by
position to the returned ids — entry `k` of the sorted values is the
confidence of the id at entry `k` — so `zip(intent_ids, message_sim)`
in `process` pairs each id with its own confidence; the ranking exposed
by `process` is truncated to the fixed `INTENT_RANKING_LENGTH` bound. -/
theorem calculate_message_sim_desc_pairing (message_sim : List ℚ) :
    List.Sorted (fun a b : ℚ => b ≤ a) (calculate_message_sim message_sim).2
    ∧ (calculate_message_sim message_sim).2
        = (calculate_message_sim message_sim).1.map (fun i => message_sim.getD i 0)
    ∧ ∀ (model : Option TrainedModel) (text_features : List ℚ),
        (process model text_features message_sim).intent_ranking.length
          ≤ INTENT_RANKING_LENGTH := by
  haveI t1 : IsTotal ℚ (fun a b : ℚ => b ≤ a) := ⟨fun a b => le_total b a⟩
  haveI t2 : IsTrans ℚ (fun a b : ℚ => b ≤ a) :=
    ⟨fun a b c h1 h2 => le_trans h2 h1⟩
  haveI t3 : IsAntisymm ℚ (fun a b : ℚ => b ≤ a) :=
    ⟨fun a b h1 h2 => le_antisymm h2 h1⟩
  haveI u1 : IsTotal ℕ (fun i j => message_sim.getD j 0 ≤ message_sim.getD i 0) :=
    ⟨fun i j => le_total (message_sim.getD j 0) (message_sim.getD i 0)⟩
  haveI u2 : IsTrans ℕ (fun i j => message_sim.getD j 0 ≤ message_sim.getD i 0) :=
    ⟨fun i j k h1 h2 => le_trans h2 h1⟩
  have hsorted2 : List.Sorted (fun a b : ℚ => b ≤ a)
      (calculate_message_sim message_sim).2 :=
    List.sorted_insertionSort _ _
  refine ⟨hsorted2, ?_, ?_⟩
  · have hperm1 : (calculate_message_sim message_sim).2.Perm message_sim :=
      List.perm_insertionSort _ _
    have hpermids : (calculate_message_sim message_sim).1.Perm
        (List.range message_sim.length) :=
      List.perm_insertionSort _ _
    have hperm2 : ((calculate_message_sim message_sim).1.map
        (fun i => message_sim.getD i 0)).Perm message_sim := by
      have := hpermids.map (fun i => message_sim.getD i 0)
      rw [map_getD_range] at this
      exact this
    have hsortedids : List.Sorted
        (fun i j => message_sim.getD j 0 ≤ message_sim.getD i 0)
        (calculate_message_sim message_sim).1 :=
      List.sorted_insertionSort _ _
    have hsortedmap : List.Sorted (fun a b : ℚ => b ≤ a)
        ((calculate_message_sim message_sim).1.map (fun i => message_sim.getD i 0)) :=
      List.Pairwise.map (fun i => message_sim.getD i 0) (fun _ _ hab => hab) hsortedids
    exact List.eq_of_perm_of_sorted (hperm1.trans hperm2.symm) hsorted2 hsortedmap
  · intro model x
    match model with
    | none => simp [process, INTENT_RANKING_LENGTH]
    | some m =>
      simp only [process]
      split
      · simp only [List.length_map, List.length_take]
        exact le_trans (Nat.min_le_left _ _) (le_refl _)
      · simp [INTENT_RANKING_LENGTH]

/-- C6: the label representation matrix built by
`_create_encoded_intents` on the intent dict of any training set always
has one row per label; with the tokenization flag off it is exactly the
`num_labels × num_labels` identity matrix; with the flag on, the token
vocabulary is built deterministically (sorted, duplicate-free) and row
`i`, column `j` is 1 exactly when vocabulary token `j` occurs among the
tokens of label name `i` split on the delimiter (multi-hot bag of
tokens), else 0. -/
theorem create_encoded_intents_spec (intent_tokenization_flag : Bool)
    (intent_split_symbol : String) (labels : List String) :
    (create_encoded_intents intent_tokenization_flag intent_split_symbol
        (create_intent_dict labels)).length = (create_intent_dict labels).length
    ∧ (intent_tokenization_flag = false →
        create_encoded_intents intent_tokenization_flag intent_split_symbol
            (create_intent_dict labels)
          = eye (create_intent_dict labels).length)
    ∧ (intent_tokenization_flag = true →
        List.Sorted (· ≤ ·)
            (token_vocab ((create_intent_dict labels).map Prod.fst) intent_split_symbol)
        ∧ (token_vocab ((create_intent_dict labels).map Prod.fst)
            intent_split_symbol).Nodup
        ∧ ∀ i, i < (create_intent_dict labels).length →
            ((create_encoded_intents intent_tokenization_flag intent_split_symbol
                (create_intent_dict labels)).getD i []).length
              = (token_vocab ((create_intent_dict labels).map Prod.fst)
                  intent_split_symbol).length
            ∧ ∀ j, j < (token_vocab ((create_intent_dict labels).map Prod.fst)
                  intent_split_symbol).length →
                ((create_encoded_intents intent_tokenization_flag intent_split_symbol
                    (create_intent_dict labels)).getD i []).getD j 0
                  = if (token_vocab ((create_intent_dict labels).map Prod.fst)
                        intent_split_symbol).getD j ("")
                      ∈ (((create_intent_dict labels).map Prod.fst).getD i ("")).splitOn
                          intent_split_symbol
                    then (1 : ℚ) else 0) := by
  refine ⟨create_encoded_intents_length _ _ _, ?_, ?_⟩
  · intro hflag
    subst hflag
    rfl
  · intro hflag
    subst hflag
    set d := create_intent_dict labels with hd
    set vocab := token_vocab (d.map Prod.fst) intent_split_symbol with hvocab
    have hvnodup : vocab.Nodup :=
      ((List.perm_insertionSort (· ≤ ·) _).nodup_iff).mpr (List.nodup_dedup _)
    refine ⟨List.sorted_insertionSort _ _, hvnodup, ?_⟩
    intro i hi
    have hM : create_encoded_intents true intent_split_symbol d
        = d.map (fun p =>
            encoded_row (create_intent_token_dict (d.map Prod.fst) intent_split_symbol)
              (create_intent_token_dict (d.map Prod.fst) intent_split_symbol).length
              intent_split_symbol p.1) := rfl
    have hrow : (create_encoded_intents true intent_split_symbol d).getD i []
        = encoded_row (create_intent_token_dict (d.map Prod.fst) intent_split_symbol)
            (create_intent_token_dict (d.map Prod.fst) intent_split_symbol).length
            intent_split_symbol (d.getD i (("", 0))).1 := by
      rw [hM]
      exact getD_map_lt _ d (("", 0)) [] i hi
    have htdlen : (create_intent_token_dict (d.map Prod.fst)
        intent_split_symbol).length = vocab.length := by
      rw [create_intent_token_dict, dict_of_length]
    have hkey : ((d.map Prod.fst).getD i ("")) = (d.getD i (("", 0))).1 :=
      getD_map_lt Prod.fst d (("", 0)) ("") i hi
    constructor
    · rw [hrow, encoded_row, htdlen]
      simp
    · intro j hj
      rw [hrow, encoded_row, htdlen]
      have hracc : ((List.range vocab.length).map
          (fun j2 =>
            if ∃ t ∈ ((d.getD i (("", 0))).1).splitOn intent_split_symbol,
                assoc_get t (create_intent_token_dict (d.map Prod.fst)
                  intent_split_symbol) = some j2
            then (1 : ℚ) else 0)).getD j 0
          = if ∃ t ∈ ((d.getD i (("", 0))).1).splitOn intent_split_symbol,
                assoc_get t (create_intent_token_dict (d.map Prod.fst)
                  intent_split_symbol) = some ((List.range vocab.length).getD j 0)
            then (1 : ℚ) else 0 :=
        getD_map_lt _ (List.range vocab.length) 0 0 j (by simpa using hj)
      rw [hracc, getD_range_lt vocab.length j hj, hkey]
      have hiff : (∃ t ∈ ((d.getD i (("", 0))).1).splitOn intent_split_symbol,
            assoc_get t (create_intent_token_dict (d.map Prod.fst)
              intent_split_symbol) = some j)
          ↔ vocab.getD j ("")
              ∈ ((d.getD i (("", 0))).1).splitOn intent_split_symbol := by
        constructor
        · rintro ⟨t, ht, hlook⟩
          rw [create_intent_token_dict] at hlook
          obtain ⟨k, hk1, hk2, hk3⟩ :=
            assoc_get_enum_from_getD vocab ("") 0 j t
              (assoc_get_dict_of_enum vocab 0 j t hlook)
          have hkj : k = j := by omega
          rw [hkj] at hk3
          rw [hk3]
          exact ht
        · intro hmem
          refine ⟨vocab.getD j (""), hmem, ?_⟩
          rw [create_intent_token_dict]
          have := assoc_get_dict_of_getD vocab ("") 0 j hvnodup hj
          simpa using this
      rw [if_congr hiff rfl rfl]

/-- C8 counterexample: two load requests whose expected artifact path
does not exist (the filesystem here is empty) and that are NOT surfaced
as the logged-warning / no-usable-model fallback.  First, metadata
naming a directory and a file: `load` consults only the metadata, takes
the restore branch and proceeds to restore the missing checkpoint.
Second, an unset `model_dir` (the declared default `None`): the
fallback branch raises `TypeError` from `os.path.abspath(None)` inside
the warning's `format` call, before warning or returning. -/
theorem load_ignores_artifact_existence :
    (("m/f.ckpt" : String) ∈ ([] : List String) → False)
    ∧ load (some ("m")) (some ("f")) = LoadResult.restoreAttempt ("m/f.ckpt")
    ∧ load (some ("m")) (some ("f")) ≠ LoadResult.fallback true
    ∧ load none none = LoadResult.raisedTypeError
    ∧ load none none ≠ LoadResult.fallback true := by
  refine ⟨?_, ?_, ?_, ?_, ?_⟩
  · intro h
    simp at h
  · decide
  · decide
  · decide
  · decide

/-- C8 (amended): for every load request carrying an actual (string)
model directory whose artifact descriptor is otherwise missing or empty
(empty `model_dir` string or falsy `file` entry), `load` logs the
"Failed to load nlu model" warning and returns an untrained component
(no exception); subsequent predictions on that component return the
unknown sentinel.  On-disk existence of the artifact path is not itself
checked: a complete descriptor pointing at a missing path leads to a
restore attempt instead of this fallback, and with `model_dir` unset
(`None`) the fallback's own warning raises `TypeError` from
`os.path.abspath(None)`. -/
theorem load_without_descriptor_degrades (model_dir : String)
    (file_name : Option String)
    (h : ¬ (py_truthy (some model_dir) = true ∧ py_truthy file_name = true)) :
    load (some model_dir) file_name = LoadResult.fallback true
    ∧ ∀ text_features message_sim : List ℚ,
        process none text_features message_sim
          = { intent := { name := none, confidence := 0 }, intent_ranking := [] } := by
  have hcond : ¬ (py_truthy (some model_dir) && py_truthy file_name) = true := by
    rw [Bool.and_eq_true]
    exact h
  constructor
  · rw [load, if_neg hcond]
  · intro x s
    exact process_none x s

theorem load_without_descriptor_degrades_witness :
    ¬ (py_truthy (some ("m")) = true ∧ py_truthy none = true)
    ∧ (load (some ("m")) none = LoadResult.fallback true
      ∧ ∀ text_features message_sim : List ℚ,
          process none text_features message_sim
            = { intent := { name := none, confidence := 0 }, intent_ranking := [] }) :=
  ⟨by decide,
   load_without_descriptor_degrades ("m") none (by decide)⟩

/-- C9: `persist` creates missing destination directories idempotently:
(a) saving with a live session to a fresh directory path succeeds,
returns `{"file": file_name}` and creates the directory together with
every missing intermediate ancestor; (b) if the directory already
exists (for example concurrently created by another process, surfacing
as `EEXIST`), that is swallowed and the save still succeeds without
touching the filesystem state; (c) any other directory-creation
failure is re-raised. -/
theorem persist_makedirs_idempotent (m : TrainedModel) (file_name : String)
    (model_dir : List String) (fs : List (List String)) (e : OSErr)
    (hfresh : model_dir ∉ fs) (hother : e ≠ OSErr.eexist) :
    (∃ r, persist (some m) file_name model_dir fs none = Except.ok r
        ∧ r.file = some file_name
        ∧ ∀ p ∈ path_inits model_dir, p ∈ r.fs)
    ∧ (∀ fs2, model_dir ∈ fs2 →
        persist (some m) file_name model_dir fs2 none
          = Except.ok
              { file := some file_name
                fs := fs2
                files_written := [model_dir ++ [file_name ++ (".ckpt")],
                                  model_dir ++ [file_name ++ ("_inv_intent_dict.pkl")]] })
    ∧ persist (some m) file_name model_dir fs (some e) = Except.error e := by
  refine ⟨?_, ?_, ?_⟩
  · have hmk : makedirs fs model_dir none
        = Except.ok (fs ++ (path_inits model_dir).filter (fun p => decide (p ∉ fs))) := by
      rw [makedirs, if_neg hfresh]
    refine ⟨⟨some file_name,
        fs ++ (path_inits model_dir).filter (fun p => decide (p ∉ fs)),
        [model_dir ++ [file_name ++ (".ckpt")],
         model_dir ++ [file_name ++ ("_inv_intent_dict.pkl")]]⟩, ?_, rfl, ?_⟩
    · simp only [persist, hmk]
    · intro p hp
      simp only [List.mem_append, List.mem_filter]
      by_cases hpfs : p ∈ fs
      · exact Or.inl hpfs
      · exact Or.inr ⟨hp, by simpa using hpfs⟩
  · intro fs2 hmem
    have hmk : makedirs fs2 model_dir none = Except.error OSErr.eexist := by
      rw [makedirs, if_pos hmem]
    simp only [persist, hmk]
    simp
  · have hmk : makedirs fs model_dir (some e) = Except.error e := rfl
    simp only [persist, hmk]
    rw [if_neg hother]

theorem persist_makedirs_idempotent_witness :
    ([("a"), ("b")] ∉ ([] : List (List String)) ∧ OSErr.other 13 ≠ OSErr.eexist)
    ∧ ((∃ r, persist (some ⟨[], [], 0⟩) ("f") [("a"), ("b")] [] none = Except.ok r
          ∧ r.file = some ("f")
          ∧ ∀ p ∈ path_inits [("a"), ("b")], p ∈ r.fs)
      ∧ (∀ fs2, [("a"), ("b")] ∈ fs2 →
          persist (some ⟨[], [], 0⟩) ("f") [("a"), ("b")] fs2 none
            = Except.ok
                { file := some ("f")
                  fs := fs2
                  files_written := [[("a"), ("b")] ++ [("f") ++ (".ckpt")],
                                    [("a"), ("b")] ++ [("f") ++ ("_inv_intent_dict.pkl")]] })
      ∧ persist (some ⟨[], [], 0⟩) ("f") [("a"), ("b")] [] (some (OSErr.other 13))
          = Except.error (OSErr.other 13)) :=
  ⟨⟨by decide, by decide⟩,
   persist_makedirs_idempotent ⟨[], [], 0⟩ ("f") [("a"), ("b")] [] (OSErr.other 13)
     (by decide) (by decide)⟩

/-- C10: persisting an untrained classifier (no live session) returns
the descriptor `{"file": None}` immediately, writes no files and
creates no directories, and that descriptor round-trips into the
no-model fallback branch of `load`: for every actual model directory
string the framework passes, `load` with the `{"file": None}`
descriptor logs the warning and returns an untrained component.  (With
`model_dir` itself unset the fallback raises `TypeError` instead — see
the C8 counterexample — so the round trip is stated for the string
`model_dir` a real load call carries.) -/
theorem persist_untrained_no_writes (file_name : String) (model_dir : List String)
    (fs : List (List String)) (envFail : Option OSErr) :
    persist none file_name model_dir fs envFail
        = Except.ok { file := none, fs := fs, files_written := [] }
    ∧ ∀ model_dir2 : String,
        load (some model_dir2) none = LoadResult.fallback true := by
  constructor
  · rfl
  · intro md2
    have hcond : ¬ (py_truthy (some md2) && py_truthy none) = true := by
      simp [py_truthy]
    rw [load, if_neg hcond]
